import Mathlib

set_option maxRecDepth 20000

/-!
Verification development for the response-completion detection and echo-filtering
engine of `chatgpt_mcp` (file `chatgpt_mcp/mcp_tools.py`).

The Python code is shallowly embedded: strings are Lean `String`s (lists of
unicode characters), Python's `str` operations (`strip`, `split`, `splitlines`,
`lower`, substring `in`, `rfind`, `replace`) are modelled as executable Lean
functions on `List Char`, the regular expressions used by the line classifier
are modelled by equivalent decidable matchers, wall-clock time is a virtual
clock advanced only by `time.sleep` (exactly as the repository's own test suite
patches it), and the IO reads (screen captures) are supplied by oracles.
Python's `str.lower` and the regex character classes `\w`, `\s` are modelled on
their ASCII fragments (every string the engine manipulates in the repository's
tests is ASCII).
-/

/-! ### Python character classes -/

/-- Whitespace characters as recognised by Python's `str.strip` / `str.split`
and the regex class `\s`. -/
def isPyWs (c : Char) : Bool :=
  c = ' ' || c = '\t' || c = '\n' || c = '\r' || c = '\x0b' || c = '\x0c' ||
  c = '\x1c' || c = '\x1d' || c = '\x1e' || c = '\x1f' || c = '\x85' || c = '\xa0' ||
  c = ' ' || (' ' ≤ c && c ≤ ' ') || c = ' ' || c = ' ' ||
  c = ' ' || c = ' ' || c = '　'

/-- Line-break characters recognised by Python's `str.splitlines`. -/
def isLineBreak (c : Char) : Bool :=
  c = '\n' || c = '\r' || c = '\x0b' || c = '\x0c' ||
  c = '\x1c' || c = '\x1d' || c = '\x1e' || c = '\x85' || c = ' ' || c = ' '

/-- Word characters for the regex class `\w` (ASCII fragment). -/
def isWordChar (c : Char) : Bool :=
  c.isAlphanum || c = '_'

/-! ### Python string primitives on `List Char` -/

/-- `str.strip()` on the left: drop leading whitespace. -/
def trimLeftL (l : List Char) : List Char := l.dropWhile isPyWs

/-- `str.strip()` on the right: drop trailing whitespace. -/
def trimRightL (l : List Char) : List Char := (l.reverse.dropWhile isPyWs).reverse

/-- Python `str.strip()`. -/
def pyStripL (l : List Char) : List Char := trimRightL (trimLeftL l)

/-- Python `str.strip()` on `String`. -/
def pyStrip (s : String) : String := ⟨pyStripL s.data⟩

/-- Python `str.lstrip(chars)`: drop leading characters from the given set. -/
def lstripCharsL (l : List Char) (chars : List Char) : List Char :=
  l.dropWhile (fun c => chars.contains c)

/-- Python `str.strip(chars)` with an explicit character set. -/
def stripCharsL (l : List Char) (chars : List Char) : List Char :=
  ((l.dropWhile (fun c => chars.contains c)).reverse.dropWhile
    (fun c => chars.contains c)).reverse

/-- Python `str.strip(chars)` on `String`. -/
def stripChars (s : String) (chars : String) : String := ⟨stripCharsL s.data chars.data⟩

/-- Python `str.lstrip(chars)` on `String`. -/
def lstripChars (s : String) (chars : String) : String := ⟨lstripCharsL s.data chars.data⟩

/-- Python `str.lower()` (ASCII fragment). -/
def lowerL (l : List Char) : List Char := l.map Char.toLower

/-- Worker for `str.split()`: split on runs of whitespace, accumulator holds the
current word reversed. -/
def wordsOfGo : List Char → List Char → List (List Char)
  | [], acc => if acc.isEmpty then [] else [acc.reverse]
  | c :: rest, acc =>
    if isPyWs c then
      if acc.isEmpty then wordsOfGo rest [] else acc.reverse :: wordsOfGo rest []
    else wordsOfGo rest (c :: acc)

/-- Python `str.split()` (no separator: split on whitespace runs). -/
def wordsOf (l : List Char) : List (List Char) := wordsOfGo l []

/-- `sep.join(pieces)` with a one-character separator. -/
def joinSep (sep : Char) : List (List Char) → List Char
  | [] => []
  | [a] => a
  | a :: b :: rest => a ++ sep :: joinSep sep (b :: rest)

/-- Python `"\n".join(lines)` on `String`s. -/
def joinLinesNL (lines : List String) : String := ⟨joinSep '\n' (lines.map String.data)⟩

/-- Normalise Python's `"\r\n"` two-character line break to `"\n"` (first pass of
the `str.splitlines` model). -/
def normCRLF : List Char → List Char
  | '\r' :: '\n' :: rest => '\n' :: normCRLF rest
  | c :: rest => c :: normCRLF rest
  | [] => []

/-- Split on individual line-break characters; accumulator holds current line
reversed.  A trailing break does not produce a final empty line, matching
Python `str.splitlines`. -/
def splitBreaks : List Char → List Char → List (List Char)
  | [], acc => if acc.isEmpty then [] else [acc.reverse]
  | c :: rest, acc =>
    if isLineBreak c then acc.reverse :: splitBreaks rest []
    else splitBreaks rest (c :: acc)

/-- Python `str.splitlines`. -/
def splitlinesL (l : List Char) : List (List Char) := splitBreaks (normCRLF l) []

/-- Python `str.splitlines` on `String`. -/
def splitlines (s : String) : List String := (splitlinesL s.data).map String.mk

/-- Substring test: does `pat` occur (contiguously) inside `s`?  Models
Python's `pat in s`. -/
def hasInfix : List Char → List Char → Bool
  | s, pat =>
    match s with
    | [] => pat.isEmpty
    | _ :: rest => pat.isPrefixOf s || hasInfix rest pat

/-- Python `sub in s` on `String`s (note the argument order: haystack first). -/
def containsStr (s sub : String) : Bool := hasInfix s.data sub.data

/-- Python `s.startswith(pre)`. -/
def startsWithStr (s pre : String) : Bool := pre.data.isPrefixOf s.data

/-- Python `s.endswith(suf)`. -/
def endsWithStr (s suf : String) : Bool := suf.data.isSuffixOf s.data

/-- Python `s.rfind(pat)`: index of the last occurrence, `none` when absent. -/
def rfindIdx (s pat : List Char) : Option Nat :=
  (List.range (s.length + 1)).reverse.find? (fun i => pat.isPrefixOf (s.drop i))

/-- Python `s.replace(pat, "", 1)`: remove the first occurrence of `pat`. -/
def replaceFirstL (pat : List Char) : List Char → List Char
  | [] => []
  | c :: rest =>
    if pat.isPrefixOf (c :: rest) then (c :: rest).drop pat.length
    else c :: replaceFirstL pat rest

/-- Python `s.replace(pat, "", 1)` on `String`s. -/
def replaceFirstStr (s pat : String) : String := ⟨replaceFirstL pat.data s.data⟩

/-! ### Regex matchers used by the line classifier

Python regexes are modelled by equivalent decidable matchers.  A pattern ending
in `$` also matches when a single final `"\n"` follows the match, so matchers
for anchored patterns try the input both as-is and without a final newline. -/

/-- The forms of a string that an anchored `...$` pattern may match: the whole
string, and the string without a single trailing `"\n"`. -/
def dollarForms (l : List Char) : List (List Char) :=
  if l.getLast? = some '\n' then [l, l.dropLast] else [l]

/-- Core of `^(https?://|www\.)\S+$` (without `$`-forms): a URL prefix followed
by at least one non-whitespace character covering the rest. -/
def urlCore (t : List Char) : Bool :=
  ["https://", "http://", "www."].any (fun p =>
    p.data.isPrefixOf t &&
    (let rest := t.drop p.length
     !rest.isEmpty && rest.all (fun c => !isPyWs c)))

/-- Model of `re.match(r"^(https?://|www\.)\S+$", s)`. -/
def urlRegexMatch (l : List Char) : Bool := (dollarForms l).any urlCore

/-- Characters of the class `[a-z0-9.-]`. -/
def isDomainChar (c : Char) : Bool :=
  ('a' ≤ c && c ≤ 'z') || ('0' ≤ c && c ≤ '9') || c = '.' || c = '-'

/-- ASCII lowercase letter test, the class `[a-z]`. -/
def isAsciiLower (c : Char) : Bool := 'a' ≤ c && c ≤ 'z'

/-- Core of `^[a-z0-9.-]+\.[a-z]{2,}(?:/[^\s]*)?$`: some decomposition
`A ++ "." ++ B ++ C` with `A` nonempty over `[a-z0-9.-]`, `B` at least two
letters, and `C` empty or `/` followed by non-whitespace. -/
def domainCore (t : List Char) : Bool :=
  (List.range t.length).any (fun i =>
    let A := t.take i
    !A.isEmpty && A.all isDomainChar && t.getD i ' ' = '.' && decide (i < t.length) &&
    (let rest := t.drop (i + 1)
     (List.range (rest.length + 1)).any (fun j =>
       decide (2 ≤ j) && (rest.take j).all isAsciiLower &&
       (let C := rest.drop j
        C.isEmpty || (C.headD ' ' = '/' && C.tail.all (fun c => !isPyWs c))))))

/-- Model of `re.match(r"^[a-z0-9.-]+\.[a-z]{2,}(?:/[^\s]*)?$", s)`. -/
def domainRegexMatch (l : List Char) : Bool := (dollarForms l).any domainCore

/-- Model of `re.match(r"^[a-z]+ing\b", s)`: the maximal leading run of ASCII
lowercase letters has length at least 4, ends in `"ing"`, and is followed by a
non-word character or the end of the string. -/
def gerundStart (l : List Char) : Bool :=
  let run := l.takeWhile isAsciiLower
  decide (4 ≤ run.length) && "ing".data.isSuffixOf run &&
  (match (l.drop run.length).head? with
   | none => true
   | some c => !isWordChar c)

/-- Model of `re.search(r"[.!?=:]", s)`. -/
def hasSentencePunct (l : List Char) : Bool :=
  l.any (fun c => c = '.' || c = '!' || c = '?' || c = '=' || c = ':')

/-- Model of `re.match(r"^(thinking|analyzing|searching|drafting|working)\b", s)`. -/
def progressStart (l : List Char) : Bool :=
  ["thinking", "analyzing", "searching", "drafting", "working"].any (fun w =>
    w.data.isPrefixOf l &&
    (match (l.drop w.length).head? with
     | none => true
     | some c => !isWordChar c))

/-! ### Constant tables from `mcp_tools.py` -/

/-- `TRANSIENT_UI_LINES`. -/
def TRANSIENT_UI_LINES : List String :=
  ["regenerate", "continue generating", "edit prompt", "copy",
   "thinking", "thinking...", "thinking…",
   "analyzing", "analyzing...", "searching", "searching...",
   "drafting", "working"]

/-- `TRANSIENT_UI_SUBSTRINGS`. -/
def TRANSIENT_UI_SUBSTRINGS : List String :=
  ["network connection lost", "attempting to reconnect", "the request timed out",
   "something went wrong", "an error occurred"]

/-- `TERMINAL_UI_FAILURE_SUBSTRINGS`. -/
def TERMINAL_UI_FAILURE_SUBSTRINGS : List String :=
  ["the request timed out", "response failed"]

/-- `READINESS_PROBE_MAX_CHARS`. -/
def READINESS_PROBE_MAX_CHARS : Nat := 180

/-- `DEFAULT_MAX_WAIT_TIME` (seconds). -/
def DEFAULT_MAX_WAIT_TIME : Nat := 2400

/-! ### Line classifier and snapshot normalizer

The Python helpers carry a leading underscore (`_is_transient_ui_line`, …);
the Lean embedding drops it. -/

/-- `_is_transient_ui_line`: detect non-answer UI/status lines. -/
def is_transient_ui_line (line : String) : Bool :=
  let normalized := pyStrip line
  if normalized = "" then false
  else if pyStrip ⟨normalized.data.filter (fun c => c ≠ '￼')⟩ = "" then true
  else
    let lowered : String := ⟨lowerL normalized.data⟩
    if TRANSIENT_UI_LINES.any (fun x => decide (x = lowered)) then true
    else if TRANSIENT_UI_SUBSTRINGS.any (fun f => containsStr lowered f) then true
    else if normalized = "▍" then true
    else if startsWithStr lowered "thought for " || startsWithStr lowered "reasoned for " then true
    else if normalized.length ≤ 120 && urlRegexMatch lowered.data then true
    else if normalized.length ≤ 120 && domainRegexMatch lowered.data then true
    else if normalized.length ≤ 180 && (endsWithStr lowered "..." || endsWithStr lowered "…")
            && gerundStart lowered.data then true
    else if normalized.length ≤ 100 && gerundStart lowered.data
            && !hasSentencePunct normalized.data then true
    else progressStart lowered.data && normalized.length ≤ 80

/-- `_clean_snapshot_text`: normalize a snapshot by stripping each line,
dropping empty and transient lines, rejoining with newlines and trimming. -/
def clean_snapshot_text (snapshot : String) : String :=
  let cleaned_lines :=
    ((splitlines snapshot).map pyStrip).filter
      (fun l => !(l = "" : Bool) && !is_transient_ui_line l)
  pyStrip (joinLinesNL cleaned_lines)

/-- `_normalize_for_match`: trim, lowercase and collapse whitespace runs. -/
def normalize_for_match (text : String) : String :=
  ⟨joinSep ' ' (wordsOf (lowerL (pyStripL text.data)))⟩

/-- `_snapshot_contains_prompt`. -/
def snapshot_contains_prompt (snapshot prompt : String) : Bool :=
  let normalized_snapshot := normalize_for_match snapshot
  let normalized_prompt := normalize_for_match prompt
  if normalized_snapshot = "" ∨ normalized_prompt = "" then false
  else containsStr normalized_snapshot normalized_prompt

/-- `_detect_terminal_ui_failure`: first terminal-failure substring present in
the lowercased snapshot, if any. -/
def detect_terminal_ui_failure (snapshot : String) : Option String :=
  let lowered : String := ⟨lowerL snapshot.data⟩
  TERMINAL_UI_FAILURE_SUBSTRINGS.find? (fun token => containsStr lowered token)

/-! ### Prompt-echo helpers -/

/-- `_is_prompt_line`: the line is effectively just the sent prompt, possibly
behind a `prompt:`/`user:`/`you:` label. -/
def is_prompt_line (line prompt : String) : Bool :=
  let line_norm := normalize_for_match line
  let prompt_norm := normalize_for_match prompt
  if line_norm = "" ∨ prompt_norm = "" then false
  else if line_norm = prompt_norm then true
  else ["prompt: ", "user: ", "you: "].any (fun pre => decide (line_norm = pre ++ prompt_norm))

/-- Case-insensitive literal match at the head of `s`; returns the rest. -/
def matchLitCI (s lit : List Char) : Option (List Char) :=
  if (s.take lit.length).map Char.toLower = lit.map Char.toLower then
    some (s.drop lit.length)
  else none

/-- Match the words of the prompt joined by `\s+` (case-insensitive literals);
returns the rest of the input after the last word. -/
def matchWordsCI : List Char → List (List Char) → Option (List Char)
  | s, [] => some s
  | s, [w] => matchLitCI s w
  | s, w :: w2 :: rest =>
    match matchLitCI s w with
    | none => none
    | some s1 =>
      match s1 with
      | [] => none
      | c :: _ =>
        if isPyWs c then matchWordsCI (s1.dropWhile isPyWs) (w2 :: rest)
        else none

/-- Model of `re.match(r"^\s*(?:prompt:\s*|user:\s*|you:\s*)?w1\s+w2...", response,
re.IGNORECASE)`: returns the input remaining after the match (so that
`response[match.end():]` is exactly the returned list). -/
def fuzzyPromptMatch (response : List Char) (ws : List (List Char)) : Option (List Char) :=
  let s0 := response.dropWhile isPyWs
  let tryLabel := fun (lab : List Char) =>
    match matchLitCI s0 lab with
    | none => none
    | some s1 => matchWordsCI (s1.dropWhile isPyWs) ws
  match tryLabel "prompt:".data with
  | some r => some r
  | none =>
    match tryLabel "user:".data with
    | some r => some r
    | none =>
      match tryLabel "you:".data with
      | some r => some r
      | none => matchWordsCI s0 ws

/-- `_strip_inline_prompt_prefix` (Lean name avoids the reserved word): strip a
single leading occurrence of the prompt — exact, labeled, or (for prompts of at
least 4 words) a whitespace-flexible case-insensitive match anchored at the
start. -/
def strip_inline_prompt_echo (response prompt : String) : String :=
  if response = "" ∨ prompt = "" then response
  else
    let trimmed : String := ⟨response.data.dropWhile isPyWs⟩
    let variants : List String := [prompt, ⟨joinSep ' ' (wordsOf prompt.data)⟩]
    let labels : List String := ["", "Prompt: ", "User: ", "You: ", "prompt: ", "user: ", "you: "]
    let firstHit :=
      variants.findSome? (fun variant =>
        let candidate := pyStrip variant
        if candidate = "" then none
        else labels.findSome? (fun label =>
          let pre : String := label ++ candidate
          if startsWithStr trimmed pre then
            some (⟨trimmed.data.drop pre.data.length⟩ : String)
          else none))
    match firstHit with
    | some rest => lstripChars rest " \n\r\t:-"
    | none =>
      let ws := wordsOf prompt.data
      if 4 ≤ ws.length then
        match fuzzyPromptMatch response.data ws with
        | some remaining => lstripChars ⟨remaining⟩ " \n\r\t:-"
        | none => response
      else response

/-- `_remove_prompt_echo_artifacts`: strip an inline prompt echo, normalize,
then drop prompt-only lines. -/
def remove_prompt_echo_artifacts (response prompt : String) : String :=
  let cleaned := clean_snapshot_text (strip_inline_prompt_echo response prompt)
  if cleaned = "" then ""
  else
    let kept_lines := ((splitlines cleaned).map pyStrip).filter
      (fun l => !(l = "" : Bool) && !is_prompt_line l prompt)
    pyStrip (joinLinesNL kept_lines)

/-- `_extract_post_prompt_snapshot`: text after the latest visible instance of
the sent prompt. -/
def extract_post_prompt_snapshot (snapshot prompt : String) : Bool × String :=
  if snapshot = "" ∨ prompt = "" then (false, "")
  else
    let variants : List String := [prompt, ⟨joinSep ' ' (wordsOf prompt.data)⟩]
    let byFind := variants.findSome? (fun variant =>
      if variant = "" then none
      else
        match rfindIdx snapshot.data variant.data with
        | some index => some (pyStrip ⟨snapshot.data.drop (index + variant.length)⟩)
        | none => none)
    match byFind with
    | some tail => (true, tail)
    | none =>
      let lines := ((splitlines snapshot).map pyStrip).filter (fun l => !(l = "" : Bool))
      if lines.isEmpty then (false, "")
      else
        let prompt_norm := normalize_for_match prompt
        let hit := (List.range lines.length).reverse.find? (fun idx =>
          let line := lines.getD idx ""
          is_prompt_line line prompt ||
          (let line_norm := normalize_for_match line
           !(prompt_norm = "" : Bool) && containsStr line_norm prompt_norm &&
           decide (line_norm.length ≤ prompt_norm.length + 48)))
        match hit with
        | some idx => (true, pyStrip (joinLinesNL (lines.drop (idx + 1))))
        | none => (false, "")

/-- `_is_prompt_echo_response`: the text still looks like a prompt-only echo. -/
def is_prompt_echo_response (response prompt : String) : Bool :=
  let normalized_response := normalize_for_match response
  let normalized_prompt := normalize_for_match prompt
  if normalized_response = "" ∨ normalized_prompt = "" then false
  else if normalized_response = normalized_prompt then true
  else if containsStr normalized_response normalized_prompt
          && (let suffix := stripChars (replaceFirstStr normalized_response normalized_prompt) " :-"
              !(suffix = "" : Bool) && is_transient_ui_line suffix) then true
  else
    containsStr normalized_response normalized_prompt
      && decide (normalized_response.length ≤ normalized_prompt.length + 24)

/-- The prompt sanitization performed inline by `ask_chatgpt`: newlines and
carriage returns become spaces, double quotes become single quotes, then trim. -/
def sanitizePrompt (prompt : String) : String :=
  pyStrip ⟨prompt.data.map (fun c =>
    if c = '\n' then ' ' else if c = '\r' then ' ' else if c = '"' then '\'' else c)⟩

/-! ### Readiness-probe detection -/

/-- `re.search` of a plain word-bounded phrase at position `i`. -/
def wordBoundedAt (s : List Char) (i : Nat) (phrase : List Char) : Bool :=
  phrase.isPrefixOf (s.drop i) &&
  (decide (i = 0) || !isWordChar (s.getD (i - 1) ' ')) &&
  (match (s.drop (i + phrase.length)).head? with
   | none => true
   | some c => !isWordChar c)

/-- Model of `re.search(r"\b<phrase>\b", s)` for a phrase of word characters
and single spaces. -/
def searchWordBounded (s phrase : List Char) : Bool :=
  (List.range (s.length + 1)).any (fun i => wordBoundedAt s i phrase)

/-- Model of `re.search(r"\bone word:\s*(ready|working|ok|okay|mcp_ok)\b", s)`
at position `i`. -/
def oneWordProbeAt (s : List Char) (i : Nat) : Bool :=
  (decide (i = 0) || !isWordChar (s.getD (i - 1) ' ')) &&
  "one word:".data.isPrefixOf (s.drop i) &&
  (let rest := (s.drop (i + 9)).dropWhile isPyWs
   ["ready", "working", "ok", "okay", "mcp_ok"].any (fun w =>
     w.data.isPrefixOf rest &&
     (match (rest.drop w.length).head? with
      | none => true
      | some c => !isWordChar c)))

/-- `_is_readiness_probe_prompt`. -/
def is_readiness_probe_prompt (prompt : String) : Bool :=
  let normalized : String := ⟨joinSep ' ' (wordsOf (lowerL prompt.data))⟩
  if normalized = "" then false
  else if READINESS_PROBE_MAX_CHARS < normalized.length then false
  else
    let l := normalized.data
    searchWordBounded l "reply with exactly".data ||
    searchWordBounded l "answer with exactly".data ||
    searchWordBounded l "answer with one word".data ||
    (List.range (l.length + 1)).any (fun i => oneWordProbeAt l i) ||
    searchWordBounded l "mcp_ok".data

/-! ### Screen capture and the stabilization poller

Screen reads are supplied by an oracle `Nat → ScreenData` giving the capture of
each polling cycle.  Wall time is virtual: it advances by `check_interval` at
each `time.sleep`, exactly as the repository's test suite patches `time.time` /
`time.sleep`.  The loop of `wait_for_response_completion` is modelled with a
fuel parameter (`none` = fuel exhausted before the Python loop would have
returned). -/

/-- One screen capture: `{status: success|error, texts: [...]}`. -/
structure ScreenData where
  success : Bool
  texts : List String
deriving DecidableEq

/-- `_conversation_text_from_data`: join the captured blocks, trim and
normalize; an error capture yields the empty snapshot. -/
def conversation_text_from_data (d : ScreenData) : String :=
  if d.success then clean_snapshot_text (pyStrip (joinLinesNL d.texts)) else ""

/-- `_raw_conversation_text_from_data`: join and trim, no filtering. -/
def raw_conversation_text_from_data (d : ScreenData) : String :=
  if d.success then pyStrip (joinLinesNL d.texts) else ""

/-- The loop body of `wait_for_response_completion`.  Arguments after the fuel:
cycle index `k` (which capture the cycle reads), the elapsed virtual time `e`
(advanced by `interval` at each `time.sleep`, exactly as the repository's tests
patch the clock), `saw_change`, `last_snapshot`, `stable_cycles`.  Returns
`some (completed, snapshot, elapsed)`. -/
def waitRun (oracle : Nat → ScreenData) (previous : String) (max_wait interval : ℚ)
    (required : Nat) : Nat → Nat → ℚ → Bool → String → Nat → Option (Bool × String × ℚ)
  | 0, _, _, _, _, _ => none
  | fuel + 1, k, e, saw, last, stable =>
    if e < max_wait then
      let cur := conversation_text_from_data (oracle k)
      if cur = "" then
        waitRun oracle previous max_wait interval required fuel (k + 1) (e + interval) saw last stable
      else
        let saw' := saw || decide (cur ≠ previous)
        if saw' = false then
          waitRun oracle previous max_wait interval required fuel (k + 1) (e + interval) saw' last stable
        else if containsStr cur "▍" then
          waitRun oracle previous max_wait interval required fuel (k + 1) (e + interval) saw' cur 0
        else if cur = last then
          if required ≤ stable + 1 then some (true, cur, e)
          else waitRun oracle previous max_wait interval required fuel (k + 1) (e + interval) saw' cur (stable + 1)
        else waitRun oracle previous max_wait interval required fuel (k + 1) (e + interval) saw' cur 1
    else some (false, last, e)

/-- `wait_for_response_completion`: wait until the conversation text changes
from the baseline and stabilizes for `required` cycles without a typing
cursor. -/
def wait_for_response_completion (oracle : Nat → ScreenData) (previous : String)
    (max_wait interval : ℚ) (required fuel : Nat) : Option (Bool × String × ℚ) :=
  waitRun oracle previous max_wait interval required fuel 0 0
    (decide (pyStrip previous = "")) previous 0

/-! ### Pending-request lifecycle -/

/-- `PendingPrompt`: the single in-flight request record. -/
structure PendingPrompt where
  prompt : String
  previous_snapshot : String
  created_at : Nat
deriving DecidableEq

/-- Externally visible automation actions performed by the tools. -/
inductive AutomationAction where
  | activate
  | sendMessage (text : String)
  | newChat
deriving DecidableEq

/-- Message built by `get_chatgpt_response` when the raw snapshot lacks the
prompt and the pending request is at least 60 seconds old. -/
def msgNotSubmitted : String :=
  "ChatGPT snapshot does not include the sent prompt after waiting; this suggests the message may not have been submitted. Pending prompt was cleared; resend the prompt."

/-- Message when the raw snapshot lacks the prompt but the pending request is
younger than 60 seconds. -/
def msgPromptNotVisible (waited : Nat) : String :=
  "ChatGPT response is still pending in the UI (sent prompt not visible yet). Elapsed wait: " ++
    (toString waited ++ "s. Call get_chatgpt_response_tool again; do not send a new prompt yet.")

/-- Message for a terminal UI failure. -/
def msgTerminal (token : String) : String :=
  "ChatGPT reported a terminal UI failure before completing the answer (" ++
    (token ++ "). Pending prompt was cleared; resend the prompt.")

/-- Message when the completed snapshot is still a prompt echo. -/
def msgEchoPending (waited : Nat) : String :=
  "ChatGPT response is still pending in the UI (prompt echo only). Elapsed wait: " ++
    (toString waited ++ "s. Call get_chatgpt_response_tool again; do not send a new prompt yet.")

/-- Timeout message while a request is pending. -/
def msgTimeoutPending (waited : Nat) : String :=
  "Timeout: ChatGPT response is still pending in the UI. Elapsed wait: " ++
    (toString waited ++ "s. Call get_chatgpt_response_tool again; do not open a new chat yet.")

/-- Timeout message with no pending request. -/
def msgTimeoutNoPending : String :=
  "Timeout: ChatGPT response did not complete within the time limit."

/-- Pending-guard message of `ask_chatgpt`. -/
def msgAskStillPending (pending_age : Nat) : String :=
  "A previous ChatGPT response is still pending. Elapsed wait: " ++
    (toString pending_age ++ "s. Call get_chatgpt_response_tool until completion before sending a new prompt.")

/-- Pending-guard message of `new_chatgpt_chat`. -/
def msgNewChatStillPending (pending_age : Nat) : String :=
  "Cannot open a new chat: previous ChatGPT response is still pending. Elapsed wait: " ++
    (toString pending_age ++ "s. Call get_chatgpt_response_tool until completion first.")

/-- Readiness-probe rejection message of `ask_chatgpt`. -/
def msgRejectedProbe : String :=
  "Rejected prompt: looks like a readiness probe. Send one task-relevant prompt and wait via get_chatgpt_response_tool."

/-- Send-confirmation failure message of `ask_chatgpt`. -/
def msgConfirmFailed : String :=
  "Failed to confirm the prompt appeared in ChatGPT UI after send. Please retry once ChatGPT input focus is stable."

/-- `scoped_snapshot` of `get_chatgpt_response`: the post-prompt text when the
prompt was located, else the whole raw snapshot. -/
def scopedSnapshotOf (raw prompt : String) : String :=
  if (extract_post_prompt_snapshot raw prompt).1 then (extract_post_prompt_snapshot raw prompt).2
  else raw

/-- `response_source` of `get_chatgpt_response`: the scoped snapshot, with the
`scoped_snapshot or response` fallback when the prompt was not located. -/
def responseSourceOf (raw conversation_text prompt : String) : String :=
  if (extract_post_prompt_snapshot raw prompt).1 then scopedSnapshotOf raw prompt
  else if scopedSnapshotOf raw prompt = "" then conversation_text
  else scopedSnapshotOf raw prompt

/-- The decision logic of `get_chatgpt_response` after its poll finished.
Inputs: the pending state, `completed` (first component of
`wait_for_response_completion`'s result), the raw snapshot read by
`_read_current_raw_snapshot`, the text read by `get_current_conversation_text`,
and the current time (seconds).  Returns the reply string and the pending
state left behind. -/
def get_chatgpt_response_model (pending : Option PendingPrompt) (completed : Bool)
    (raw_response conversation_text : String) (now : Nat) :
    String × Option PendingPrompt :=
  if completed then
    match pending with
    | some p =>
      if ¬ (snapshot_contains_prompt raw_response p.prompt = true) then
        let waited := now - p.created_at
        if 60 ≤ waited then (msgNotSubmitted, none)
        else (msgPromptNotVisible waited, some p)
      else
        let scoped_snapshot := scopedSnapshotOf raw_response p.prompt
        let response := remove_prompt_echo_artifacts
          (responseSourceOf raw_response conversation_text p.prompt) p.prompt
        if response = "" ∨ is_prompt_echo_response response p.prompt = true then
          match detect_terminal_ui_failure scoped_snapshot with
          | some token => (msgTerminal token, none)
          | none => (msgEchoPending (now - p.created_at), some p)
        else (response, none)
    | none => (conversation_text, none)
  else
    match pending with
    | some p => (msgTimeoutPending (now - p.created_at), some p)
    | none => (msgTimeoutNoPending, none)

/-- Loop of `_resolve_post_send_baseline`: 20 virtual-clock polling cycles
(`max_wait=8.0`, `interval=0.4`), returning the first snapshot containing the
normalized prompt, else the latest non-empty snapshot, else the pre-send
snapshot. -/
def resolveBaselineGo (snaps : Nat → String) (prompt_normalized before : String) :
    Nat → Nat → String → String
  | 0, _, latest => if latest = "" then before else latest
  | fuel + 1, k, latest =>
    let snapshot := snaps k
    let latest' := if snapshot = "" then latest else snapshot
    if ¬ (snapshot = "") ∧ ¬ (prompt_normalized = "")
        ∧ containsStr (normalize_for_match snapshot) prompt_normalized = true then
      snapshot
    else resolveBaselineGo snaps prompt_normalized before fuel (k + 1) latest'

/-- `_resolve_post_send_baseline` under the virtual clock. -/
def resolve_post_send_baseline (snaps : Nat → String) (before prompt : String) : String :=
  resolveBaselineGo snaps (normalize_for_match prompt) before 20 0 ""

/-- Environment consumed by `ask_chatgpt`: the IO reads it performs. -/
structure AskEnv where
  /-- `_read_current_snapshot()` before the send. -/
  before_snapshot : String
  /-- normalized snapshots observed by `_resolve_post_send_baseline`. -/
  resolve_snaps : Nat → String
  /-- outcome of `wait_for_response_completion` inside `get_chatgpt_response`. -/
  poll_completed : Bool
  /-- `_read_current_raw_snapshot()` after the poll. -/
  raw_response : String
  /-- `get_current_conversation_text()` after the poll. -/
  conversation_text : String
  /-- time at which `get_chatgpt_response` processes the result. -/
  response_now : Nat

/-- `ask_chatgpt`: pending guard, prompt sanitization, readiness-probe
rejection, send, baseline confirmation, pending creation and response
retrieval.  Returns the reply, the final pending state and the automation
actions performed. -/
def ask_chatgpt (st : Option PendingPrompt) (now : Nat) (prompt : String) (env : AskEnv) :
    String × Option PendingPrompt × List AutomationAction :=
  match st with
  | some pending => (msgAskStillPending (now - pending.created_at), st, [])
  | none =>
    let before_snapshot := env.before_snapshot
    let cleaned_prompt := sanitizePrompt prompt
    if is_readiness_probe_prompt cleaned_prompt then (msgRejectedProbe, none, [])
    else
      let acts := [AutomationAction.activate, AutomationAction.sendMessage cleaned_prompt]
      let baseline_snapshot := resolve_post_send_baseline env.resolve_snaps before_snapshot cleaned_prompt
      if ¬ (snapshot_contains_prompt baseline_snapshot cleaned_prompt = true) then
        (msgConfirmFailed, none, acts)
      else
        let pending := PendingPrompt.mk cleaned_prompt baseline_snapshot now
        let r := get_chatgpt_response_model (some pending) env.poll_completed
          env.raw_response env.conversation_text env.response_now
        (r.1, r.2, acts)

/-- `new_chatgpt_chat`: pending guard, then delegate to the new-chat
collaborator whose `(success, method)` result is supplied as input. -/
def new_chatgpt_chat (st : Option PendingPrompt) (now : Nat) (newChatResult : Bool × String) :
    String × Option PendingPrompt × List AutomationAction :=
  match st with
  | some pending => (msgNewChatStillPending (now - pending.created_at), st, [])
  | none =>
    let success := newChatResult.1
    let method := newChatResult.2
    (if success then "Successfully opened a new ChatGPT chat window using: " ++ method
     else "Failed to open a new chat window. Last tried method: " ++ method,
     none, [AutomationAction.newChat])

/-! ### Oracles and environments used by witnesses -/

/-- Constant-capture oracle used by the C3 witness. -/
def c3Oracle : Nat → ScreenData := fun _ => ⟨true, ["user: waiting"]⟩

/-- Oracle of the C2 counterexample and witness: one baseline cycle, then the
stable answer forever. -/
def c2Oracle : Nat → ScreenData := fun k => ⟨true, [if k < 1 then "user: a" else "done."]⟩

/-- A string free of newlines, carriage returns and double quotes. -/
def noBadChars (s : String) : Bool :=
  s.data.all (fun c => !(c = '\n' || c = '\r' || c = '"'))

/-- The sanitization invariant on the pending slot. -/
def pendingClean : Option PendingPrompt → Bool
  | none => true
  | some p => noBadChars p.prompt

/-- A trivial environment for `ask_chatgpt` used by the C10 witness. -/
def c10Env : AskEnv := ⟨"", fun _ => "", false, "", "", 0⟩

/-! ### Basic lemmas about the string primitives -/

theorem strExt {s t : String} (h : s.data = t.data) : s = t := by
  cases s; cases t; exact congrArg String.mk h

@[simp] theorem data_mk (l : List Char) : (String.mk l).data = l := rfl

@[simp] theorem strAppend_data (a b : String) : (a ++ b).data = a.data ++ b.data := rfl

theorem dropWhile_idem (p : α → Bool) (l : List α) :
    (l.dropWhile p).dropWhile p = l.dropWhile p := by
  induction l with
  | nil => rfl
  | cons c rest ih =>
    by_cases h : p c
    · simpa [List.dropWhile_cons, h] using ih
    · simp [List.dropWhile_cons, h]

theorem mem_trimLeftL {c : Char} {l : List Char} (h : c ∈ trimLeftL l) : c ∈ l :=
  (List.dropWhile_sublist _).subset h

theorem mem_trimRightL {c : Char} {l : List Char} (h : c ∈ trimRightL l) : c ∈ l := by
  unfold trimRightL at h
  rw [List.mem_reverse] at h
  simpa using (List.dropWhile_sublist _).subset h

theorem mem_pyStripL {c : Char} {l : List Char} (h : c ∈ pyStripL l) : c ∈ l :=
  mem_trimLeftL (mem_trimRightL (l := trimLeftL l) h)

theorem trimLeftL_idem (l : List Char) : trimLeftL (trimLeftL l) = trimLeftL l :=
  dropWhile_idem _ _

theorem trimRightL_idem (l : List Char) : trimRightL (trimRightL l) = trimRightL l := by
  unfold trimRightL
  rw [List.reverse_reverse, dropWhile_idem]

/-- `trimRightL` is a prefix of its argument. -/
theorem trimRightL_prefix (l : List Char) : trimRightL l <+: l := by
  unfold trimRightL
  obtain ⟨t, ht⟩ : l.reverse.dropWhile isPyWs <:+ l.reverse := List.dropWhile_suffix _
  exact ⟨t.reverse, by
    have := congrArg List.reverse ht
    simpa [List.reverse_append] using this⟩

theorem head_not_ws_of_trimLeft {l : List Char} (h : trimLeftL l ≠ []) :
    isPyWs ((trimLeftL l).head h) = false :=
  List.head_dropWhile_not isPyWs l h

/-- The head of a left-trimmed list is not whitespace, `Option` form. -/
theorem head?_trimLeftL_not_ws {l : List Char} {c : Char}
    (h : (trimLeftL l).head? = some c) : isPyWs c = false := by
  have hne : trimLeftL l ≠ [] := by
    intro hnil; rw [hnil] at h; simp at h
  have hh := head_not_ws_of_trimLeft hne
  rw [List.head?_eq_head hne, Option.some_inj] at h
  rw [← h]; exact hh

/-! ### Substring lemmas for the fixed report messages -/

theorem hasInfix_nilPat (s : List Char) : hasInfix s [] = true := by
  induction s with
  | nil => rfl
  | cons c rest ih => simp [hasInfix, ih]

theorem isPrefixOf_append_of_isPrefixOf {pat a : List Char} (b : List Char)
    (h : pat.isPrefixOf a = true) : pat.isPrefixOf (a ++ b) = true := by
  rw [List.isPrefixOf_iff_prefix] at h ⊢
  exact h.trans (List.prefix_append a b)

theorem hasInfix_append_left {a : List Char} {pat : List Char} (b : List Char)
    (h : hasInfix a pat = true) : hasInfix (a ++ b) pat = true := by
  induction a with
  | nil =>
    have : pat = [] := by simpa [hasInfix] using h
    subst this
    exact hasInfix_nilPat b
  | cons c rest ih =>
    rw [hasInfix] at h
    rcases Bool.or_eq_true_iff.mp h with h1 | h2
    · rw [List.cons_append, hasInfix]
      exact Bool.or_eq_true_iff.mpr (Or.inl (isPrefixOf_append_of_isPrefixOf b h1))
    · rw [List.cons_append, hasInfix]
      exact Bool.or_eq_true_iff.mpr (Or.inr (ih h2))

theorem hasInfix_append_right {b : List Char} {pat : List Char} (a : List Char)
    (h : hasInfix b pat = true) : hasInfix (a ++ b) pat = true := by
  induction a with
  | nil => simpa using h
  | cons c rest ih =>
    rw [List.cons_append, hasInfix]
    exact Bool.or_eq_true_iff.mpr (Or.inr ih)

theorem containsStr_append_left {a : String} {sub : String} (b : String)
    (h : containsStr a sub = true) : containsStr (a ++ b) sub = true := by
  unfold containsStr at h ⊢
  rw [strAppend_data]
  exact hasInfix_append_left b.data h

theorem containsStr_append_right {b : String} {sub : String} (a : String)
    (h : containsStr b sub = true) : containsStr (a ++ b) sub = true := by
  unfold containsStr at h ⊢
  rw [strAppend_data]
  exact hasInfix_append_right a.data h

/-! ### Claim theorems -/

/-- C1: single-flight.  Whenever a pending request exists, `ask_chatgpt` (with
any prompt) and `new_chatgpt_chat` both return a failure message containing
"still pending", leave the stored pending request unchanged (same record, so
same prompt, baseline snapshot and creation time), and perform no automation
action (no send, no new-conversation). -/
theorem C1_single_flight (p : PendingPrompt) (now : Nat) (prompt : String) (env : AskEnv)
    (newChatResult : Bool × String) :
    containsStr (ask_chatgpt (some p) now prompt env).1 "still pending" = true ∧
    (ask_chatgpt (some p) now prompt env).2.1 = some p ∧
    (ask_chatgpt (some p) now prompt env).2.2 = [] ∧
    containsStr (new_chatgpt_chat (some p) now newChatResult).1 "still pending" = true ∧
    (new_chatgpt_chat (some p) now newChatResult).2.1 = some p ∧
    (new_chatgpt_chat (some p) now newChatResult).2.2 = [] := by
  refine ⟨?_, rfl, rfl, ?_, rfl, rfl⟩
  · show containsStr (msgAskStillPending (now - p.created_at)) "still pending" = true
    unfold msgAskStillPending
    exact containsStr_append_left _ (by decide)
  · show containsStr (msgNewChatStillPending (now - p.created_at)) "still pending" = true
    unfold msgNewChatStillPending
    exact containsStr_append_left _ (by decide)

/-- C9 counterexample: the claim says every line that is empty after trimming
is classified transient, but `_is_transient_ui_line` returns `False` for such
lines (`if not normalized: return False`). -/
theorem C9_counterexample :
    pyStrip "" = "" ∧ is_transient_ui_line "" = false ∧
    pyStrip " " = "" ∧ is_transient_ui_line " " = false := by decide

/-- C9 (amended): a line that is empty after trimming is classified NOT
transient (the normalizer drops empty lines before consulting the classifier),
and a line that is non-empty after trimming but consists solely of the
non-printable placeholder glyph (and whitespace) is classified transient. -/
theorem C9_blank_placeholder (line : String) :
    (pyStrip line = "" → is_transient_ui_line line = false) ∧
    (pyStrip line ≠ "" →
      pyStrip ⟨(pyStrip line).data.filter (fun c => c ≠ '￼')⟩ = "" →
      is_transient_ui_line line = true) := by
  constructor
  · intro h
    unfold is_transient_ui_line
    simp [h]
  · intro h1 h2
    unfold is_transient_ui_line
    simp [h1]
    refine Or.inl ?_
    simpa using h2

/-- C9 witness: the amended claim applied at `" "` (trimmed-empty, classified
not transient) and `"￼"` (placeholder-only, classified transient). -/
theorem C9_witness :
    is_transient_ui_line " " = false ∧ is_transient_ui_line "￼" = true :=
  ⟨(C9_blank_placeholder " ").1 (by decide),
   (C9_blank_placeholder "￼").2 (by decide) (by decide)⟩

/-- C7 (code bug): on the spec's echo-scoped cleaning example, the direct
prompt-echo artifact removal gives exactly the expected answer (this is the
repository's passing unit test), but `get_chatgpt_response` applies the
cleaning to the post-prompt text produced by echo-location, which here is only
the trailing failure banner; the cleaned answer is the empty string and the
call reports a terminal UI failure instead of returning the answer, so the
repository's own full-path test
`test_get_response_returns_clean_answer_without_prompt_or_timeout_noise`
fails. -/
theorem C7_echo_scoped_cleaning_bug :
    remove_prompt_echo_artifacts
      "assistant: final answer\nPrompt: solve this.\nThe request timed out." "solve this."
      = "assistant: final answer" ∧
    extract_post_prompt_snapshot
      "assistant: final answer\nPrompt: solve this.\nThe request timed out." "solve this."
      = (true, "The request timed out.") ∧
    remove_prompt_echo_artifacts "The request timed out." "solve this." = "" ∧
    get_chatgpt_response_model (some ⟨"solve this.", "baseline", 0⟩) true
      "assistant: final answer\nPrompt: solve this.\nThe request timed out."
      "assistant: final answer\nPrompt: solve this.\nThe request timed out." 0
      = (msgTerminal "the request timed out", none) := by decide

/-- C4: stale-echo clearing.  When the poll completed, a request is pending and
the raw snapshot does not contain the prompt under normalized matching: at
pending age ≥ 60 s the pending request is cleared and the reply advises
resending the prompt; below 60 s it is preserved and the reply advises calling
again. -/
theorem C4_stale_echo_clearing (p : PendingPrompt) (raw conv : String) (now : Nat)
    (h : snapshot_contains_prompt raw p.prompt = false) :
    (60 ≤ now - p.created_at →
      get_chatgpt_response_model (some p) true raw conv now = (msgNotSubmitted, none) ∧
      containsStr msgNotSubmitted "resend the prompt" = true) ∧
    (now - p.created_at < 60 →
      get_chatgpt_response_model (some p) true raw conv now
        = (msgPromptNotVisible (now - p.created_at), some p) ∧
      containsStr (msgPromptNotVisible (now - p.created_at)) "again" = true) := by
  constructor
  · intro hage
    constructor
    · unfold get_chatgpt_response_model
      simp [h, hage]
    · decide
  · intro hage
    constructor
    · unfold get_chatgpt_response_model
      simp [h, Nat.not_le.mpr hage]
    · unfold msgPromptNotVisible
      exact containsStr_append_right _ (containsStr_append_right _ (by decide))

/-- C4 witness: a pending request aged 100 s whose prompt is absent from the
raw snapshot is cleared with the resend advice. -/
theorem C4_witness :
    get_chatgpt_response_model (some ⟨"solve this.", "base", 0⟩) true "unrelated" "x" 100
      = (msgNotSubmitted, none) :=
  ((C4_stale_echo_clearing ⟨"solve this.", "base", 0⟩ "unrelated" "x" 100 (by decide)).1
    (by decide)).1

/-- `_is_transient_ui_line` rejects the empty string. -/
theorem is_transient_ui_line_empty : is_transient_ui_line "" = false := by decide

/-- C5: terminal-failure clearing.  When the poll completed, a request is
pending, the prompt is visible in the raw snapshot, and the cleaned post-prompt
text is empty or classified as a prompt echo: if the scoped text contains a
terminal-failure substring the pending request is cleared and a terminal
failure is reported; otherwise the pending request is preserved and a
still-pending retry message is returned. -/
theorem C5_terminal_failure (p : PendingPrompt) (raw conv : String) (now : Nat)
    (hc : snapshot_contains_prompt raw p.prompt = true)
    (hecho : remove_prompt_echo_artifacts (responseSourceOf raw conv p.prompt) p.prompt = "" ∨
      is_prompt_echo_response
        (remove_prompt_echo_artifacts (responseSourceOf raw conv p.prompt) p.prompt) p.prompt
        = true) :
    (∀ token, detect_terminal_ui_failure (scopedSnapshotOf raw p.prompt) = some token →
      get_chatgpt_response_model (some p) true raw conv now = (msgTerminal token, none) ∧
      containsStr (msgTerminal token) "terminal UI failure" = true) ∧
    (detect_terminal_ui_failure (scopedSnapshotOf raw p.prompt) = none →
      get_chatgpt_response_model (some p) true raw conv now
        = (msgEchoPending (now - p.created_at), some p) ∧
      containsStr (msgEchoPending (now - p.created_at)) "still pending" = true) := by
  constructor
  · intro token htok
    constructor
    · unfold get_chatgpt_response_model
      simp [hc, hecho, htok]
    · unfold msgTerminal
      exact containsStr_append_left _ (by decide)
  · intro hnone
    constructor
    · unfold get_chatgpt_response_model
      simp [hc, hecho, hnone]
    · unfold msgEchoPending
      exact containsStr_append_left _ (by decide)

/-- C5 witness: prompt visible, post-prompt text is only the timeout banner —
pending cleared with the terminal-failure message. -/
theorem C5_witness :
    get_chatgpt_response_model (some ⟨"solve this.", "b", 0⟩) true
      "solve this.\nThe request timed out." "solve this.\nThe request timed out." 7
      = (msgTerminal "the request timed out", none) :=
  ((C5_terminal_failure ⟨"solve this.", "b", 0⟩ "solve this.\nThe request timed out."
      "solve this.\nThe request timed out." 7 (by decide) (Or.inl (by decide))).1
    "the request timed out" (by decide)).1

/-- C6: echo classification.  For texts whose whitespace-collapsed, case-folded
normalizations are both non-empty, `_is_prompt_echo_response` holds exactly
when the normalized text equals the normalized prompt, or the normalized
prompt occurs in the normalized text and either the remainder after removing
one prompt occurrence (trimmed of spaces, colons and dashes) is a transient
line, or the normalized text exceeds the normalized prompt by at most 24
characters.  In particular the two concrete examples of the claim hold. -/
theorem C6_echo_classification :
    (∀ response prompt : String,
      normalize_for_match response ≠ "" → normalize_for_match prompt ≠ "" →
      (is_prompt_echo_response response prompt = true ↔
        (normalize_for_match response = normalize_for_match prompt ∨
         (containsStr (normalize_for_match response) (normalize_for_match prompt) = true ∧
          (is_transient_ui_line
              (stripChars
                (replaceFirstStr (normalize_for_match response) (normalize_for_match prompt))
                " :-") = true ∨
           (normalize_for_match response).length ≤ (normalize_for_match prompt).length + 24))))) ∧
    is_prompt_echo_response "Prompt: solve this." "solve this." = true ∧
    is_prompt_echo_response "solve this.\nassistant: detailed answer" "solve this." = false := by
  refine ⟨?_, by decide, by decide⟩
  intro response prompt hr hp
  unfold is_prompt_echo_response
  rw [if_neg (by exact fun h => h.elim hr hp)]
  by_cases heq : normalize_for_match response = normalize_for_match prompt
  · simp [heq]
  · rw [if_neg heq]
    by_cases hsub :
        stripChars
          (replaceFirstStr (normalize_for_match response) (normalize_for_match prompt))
          " :-" = ""
    · rw [hsub]
      simp [heq, is_transient_ui_line_empty]
    · by_cases hcontains :
          containsStr (normalize_for_match response) (normalize_for_match prompt) = true
      · by_cases htr :
            is_transient_ui_line
              (stripChars
                (replaceFirstStr (normalize_for_match response) (normalize_for_match prompt))
                " :-") = true
        · simp [heq, hcontains, hsub, htr]
        · simp only [Bool.not_eq_true] at htr
          simp [heq, hcontains, hsub, htr]
      · simp only [Bool.not_eq_true] at hcontains
        simp [heq, hcontains, hsub]

/-- C6 witness: the characterization applied at the claim's first example. -/
theorem C6_witness :
    is_prompt_echo_response "Prompt: solve this." "solve this." = true ↔
      (normalize_for_match "Prompt: solve this." = normalize_for_match "solve this." ∨
       (containsStr (normalize_for_match "Prompt: solve this.")
          (normalize_for_match "solve this.") = true ∧
        (is_transient_ui_line
            (stripChars
              (replaceFirstStr (normalize_for_match "Prompt: solve this.")
                (normalize_for_match "solve this."))
              " :-") = true ∨
         (normalize_for_match "Prompt: solve this.").length
           ≤ (normalize_for_match "solve this.").length + 24))) :=
  C6_echo_classification.1 "Prompt: solve this." "solve this." (by decide) (by decide)

/-! ### Normalizer postcondition machinery (C8) -/

@[simp] theorem mk_data (s : String) : String.mk s.data = s := by cases s; rfl

theorem ne_empty_iff_data {s : String} : s ≠ "" ↔ s.data ≠ [] := by
  constructor
  · intro h hdata
    exact h (strExt (by simpa using hdata))
  · intro h hs
    rw [hs] at h
    exact h rfl

theorem trimLeftL_eq_self {l : List Char}
    (h : ∀ c, l.head? = some c → isPyWs c = false) : trimLeftL l = l := by
  cases l with
  | nil => rfl
  | cons c rest =>
    have hc := h c rfl
    simp [trimLeftL, List.dropWhile_cons, hc]

theorem trimRightL_eq_self {l : List Char}
    (h : ∀ c, l.getLast? = some c → isPyWs c = false) : trimRightL l = l := by
  unfold trimRightL
  have : trimLeftL l.reverse = l.reverse := by
    apply trimLeftL_eq_self
    intro c hc
    rw [List.head?_reverse] at hc
    exact h c hc
  unfold trimLeftL at this
  rw [this, List.reverse_reverse]

theorem isPrefix_head?_eq {a b : List Char} (h : a <+: b) (ha : a ≠ []) :
    a.head? = b.head? := by
  obtain ⟨t, rfl⟩ := h
  cases a with
  | nil => exact absurd rfl ha
  | cons c rest => rfl

theorem pyStripL_head_not_ws {l : List Char} (hne : pyStripL l ≠ []) :
    ∀ c, (pyStripL l).head? = some c → isPyWs c = false := by
  intro c hc
  have hpre : pyStripL l <+: trimLeftL l := trimRightL_prefix _
  rw [isPrefix_head?_eq hpre hne] at hc
  exact head?_trimLeftL_not_ws hc

theorem pyStripL_last_not_ws {l : List Char} :
    ∀ c, (pyStripL l).getLast? = some c → isPyWs c = false := by
  intro c hc
  have h1 : pyStripL l = (trimLeftL ((trimLeftL l).reverse)).reverse := rfl
  rw [h1, List.getLast?_reverse] at hc
  exact head?_trimLeftL_not_ws hc

theorem pyStripL_idem (l : List Char) : pyStripL (pyStripL l) = pyStripL l := by
  have h1 : trimLeftL (pyStripL l) = pyStripL l := by
    by_cases hy : pyStripL l = []
    · rw [hy]; rfl
    · exact trimLeftL_eq_self (pyStripL_head_not_ws hy)
  have h2 : trimRightL (pyStripL l) = pyStripL l :=
    trimRightL_eq_self pyStripL_last_not_ws
  show trimRightL (trimLeftL (pyStripL l)) = pyStripL l
  rw [h1, h2]

theorem pyStrip_pyStrip (s : String) : pyStrip (pyStrip s) = pyStrip s :=
  strExt (pyStripL_idem s.data)

theorem pyStrip_clean (s : String) :
    pyStrip (clean_snapshot_text s) = clean_snapshot_text s := by
  unfold clean_snapshot_text
  exact pyStrip_pyStrip _

/-- Lines produced by `splitBreaks` contain no line-break character. -/
theorem splitBreaks_no_break :
    ∀ (l acc : List Char), (∀ c ∈ acc, isLineBreak c = false) →
      ∀ p ∈ splitBreaks l acc, ∀ c ∈ p, isLineBreak c = false := by
  intro l
  induction l with
  | nil =>
    intro acc hacc p hp c hc
    unfold splitBreaks at hp
    by_cases he : acc.isEmpty
    · rw [if_pos he] at hp
      simp at hp
    · rw [if_neg he] at hp
      rcases List.mem_singleton.mp hp with rfl
      exact hacc c (List.mem_reverse.mp hc)
  | cons d rest ih =>
    intro acc hacc p hp c hc
    unfold splitBreaks at hp
    by_cases hd : isLineBreak d = true
    · rw [if_pos hd] at hp
      rcases List.mem_cons.mp hp with rfl | h2
      · exact hacc c (List.mem_reverse.mp hc)
      · exact ih [] (by simp) p h2 c hc
    · rw [if_neg hd] at hp
      refine ih (d :: acc) ?_ p hp c hc
      intro x hx
      rcases List.mem_cons.mp hx with rfl | hx'
      · simpa using hd
      · exact hacc x hx'

theorem splitBreaks_cons (c : Char) (rest acc : List Char) :
    splitBreaks (c :: rest) acc =
      if isLineBreak c = true then acc.reverse :: splitBreaks rest []
      else splitBreaks rest (c :: acc) := rfl

/-- `splitBreaks` consumes a break-free prefix into the accumulator. -/
theorem splitBreaks_append :
    ∀ (a : List Char), (∀ c ∈ a, isLineBreak c = false) →
      ∀ (r acc : List Char), splitBreaks (a ++ r) acc = splitBreaks r (a.reverse ++ acc) := by
  intro a
  induction a with
  | nil => intro _ r acc; simp
  | cons d a' ih =>
    intro ha r acc
    have hd : isLineBreak d = false := ha d (by simp)
    rw [List.cons_append, splitBreaks_cons]
    rw [if_neg (by simp [hd])]
    rw [ih (fun c hc => ha c (by simp [hc])) r (d :: acc)]
    congr 1
    simp

/-- Characters of a joined list come from the separator or from the pieces. -/
theorem mem_joinSep {c sep : Char} :
    ∀ {L : List (List Char)}, c ∈ joinSep sep L → c = sep ∨ ∃ p ∈ L, c ∈ p := by
  intro L
  induction L with
  | nil => intro h; simp [joinSep] at h
  | cons a rest ih =>
    cases rest with
    | nil => intro hc; exact Or.inr ⟨a, by simp, hc⟩
    | cons b rest' =>
      intro hc
      rw [joinSep] at hc
      rcases List.mem_append.mp hc with h1 | h2
      · exact Or.inr ⟨a, by simp, h1⟩
      · rcases List.mem_cons.mp h2 with rfl | h3
        · exact Or.inl rfl
        · rcases ih h3 with h | ⟨p, hp, hcp⟩
          · exact Or.inl h
          · exact Or.inr ⟨p, List.mem_cons_of_mem _ hp, hcp⟩

/-- `normCRLF` is the identity on `'\r'`-free input. -/
theorem normCRLF_eq_self :
    ∀ (l : List Char), (∀ c ∈ l, c ≠ '\r') → normCRLF l = l := by
  intro l
  induction l with
  | nil => intro _; rfl
  | cons c rest ih =>
    intro h
    have hc : c ≠ '\r' := h c (by simp)
    have hrec : normCRLF rest = rest := ih (fun x hx => h x (by simp [hx]))
    rw [normCRLF.eq_def]
    split
    · rename_i rest' heq
      rw [List.cons_eq_cons] at heq
      exact absurd heq.1 hc
    · rename_i c' rest' heq
      rw [List.cons_eq_cons] at heq
      obtain ⟨rfl, rfl⟩ := heq
      rw [hrec]
    · rename_i heq
      exact absurd heq (by simp)

/-- Splitting a newline-joined list of break-free non-empty lines recovers the
lines. -/
theorem splitBreaks_join :
    ∀ (L : List (List Char)),
      (∀ p ∈ L, p ≠ [] ∧ ∀ c ∈ p, isLineBreak c = false) →
      splitBreaks (joinSep '\n' L) [] = L := by
  intro L
  induction L with
  | nil => intro _; rfl
  | cons a rest ih =>
    intro h
    have ha := h a (by simp)
    cases rest with
    | nil =>
      have hsb := splitBreaks_append a ha.2 [] []
      rw [List.append_nil] at hsb
      rw [show joinSep '\n' [a] = a from rfl, hsb]
      unfold splitBreaks
      rw [if_neg (by simpa [List.isEmpty_iff] using ha.1)]
      simp
    | cons b rest' =>
      have hrest : ∀ p ∈ b :: rest', p ≠ [] ∧ ∀ c ∈ p, isLineBreak c = false :=
        fun p hp => h p (List.mem_cons_of_mem _ hp)
      rw [show joinSep '\n' (a :: b :: rest') = a ++ '\n' :: joinSep '\n' (b :: rest') from rfl]
      rw [splitBreaks_append a ha.2]
      rw [splitBreaks_cons]
      rw [if_pos (by decide)]
      rw [ih hrest]
      simp

/-- `splitlines` of a newline-joined list of break-free non-empty lines. -/
theorem splitlinesL_join (L : List (List Char))
    (h : ∀ p ∈ L, p ≠ [] ∧ ∀ c ∈ p, isLineBreak c = false) :
    splitlinesL (joinSep '\n' L) = L := by
  unfold splitlinesL
  rw [normCRLF_eq_self]
  · exact splitBreaks_join L h
  · intro c hc
    rcases mem_joinSep hc with rfl | ⟨p, hp, hcp⟩
    · decide
    · intro hcr
      have := (h p hp).2 c hcp
      rw [hcr] at this
      exact absurd this (by decide)

theorem head?_joinSep_cons (sep : Char) (a : List Char) (rest : List (List Char))
    (ha : a ≠ []) : (joinSep sep (a :: rest)).head? = a.head? := by
  cases rest with
  | nil => rfl
  | cons b rest' =>
    rw [joinSep]
    cases a with
    | nil => exact absurd rfl ha
    | cons c t => rfl

theorem joinSep_ne_nil (sep : Char) (a : List Char) (rest : List (List Char))
    (ha : a ≠ []) : joinSep sep (a :: rest) ≠ [] := by
  cases rest with
  | nil => simpa [joinSep]
  | cons b r =>
    rw [joinSep]
    simp

theorem getLast?_joinSep_mem :
    ∀ (L : List (List Char)) (sep : Char), L ≠ [] → (∀ p ∈ L, p ≠ []) →
      ∃ p ∈ L, (joinSep sep L).getLast? = p.getLast? := by
  intro L sep hL hne
  induction L with
  | nil => exact absurd rfl hL
  | cons a rest ih =>
    cases rest with
    | nil => exact ⟨a, by simp, rfl⟩
    | cons b rest' =>
      obtain ⟨p, hp, hpeq⟩ := ih (by simp) (fun q hq => hne q (List.mem_cons_of_mem _ hq))
      refine ⟨p, List.mem_cons_of_mem _ hp, ?_⟩
      have hb : b ≠ [] := hne b (by simp)
      have hjoin : joinSep sep (b :: rest') ≠ [] := joinSep_ne_nil sep b rest' hb
      rw [joinSep, List.getLast?_append]
      have h1 : (sep :: joinSep sep (b :: rest')).getLast? = (joinSep sep (b :: rest')).getLast? := by
        cases hj : joinSep sep (b :: rest') with
        | nil => exact absurd hj hjoin
        | cons x xs => exact List.getLast?_cons_cons
      rw [h1, hpeq]
      have hps : p.getLast?.isSome := by
        rw [List.getLast?_isSome]
        exact hne p (List.mem_cons_of_mem _ hp)
      cases hv : p.getLast? with
      | none => rw [hv] at hps; simp at hps
      | some v => rfl

/-- Joining non-empty trimmed lines with newlines yields a trimmed string. -/
theorem pyStripL_joinSep (L : List (List Char))
    (h : ∀ p ∈ L, p ≠ [] ∧ pyStripL p = p) :
    pyStripL (joinSep '\n' L) = joinSep '\n' L := by
  cases L with
  | nil => rfl
  | cons a rest =>
    have ha := h a (by simp)
    have hL : trimLeftL (joinSep '\n' (a :: rest)) = joinSep '\n' (a :: rest) := by
      apply trimLeftL_eq_self
      intro c hc
      rw [head?_joinSep_cons '\n' a rest ha.1] at hc
      apply pyStripL_head_not_ws (l := a)
      · rw [ha.2]; exact ha.1
      · rw [ha.2]; exact hc
    have hR : trimRightL (joinSep '\n' (a :: rest)) = joinSep '\n' (a :: rest) := by
      apply trimRightL_eq_self
      intro c hc
      obtain ⟨p, hp, hpeq⟩ :=
        getLast?_joinSep_mem (a :: rest) '\n' (by simp) (fun q hq => (h q hq).1)
      rw [hpeq] at hc
      have hpp := h p hp
      apply pyStripL_last_not_ws (l := p)
      rw [hpp.2]
      exact hc
    show trimRightL (trimLeftL _) = _
    rw [hL, hR]

/-- C8: normalization postcondition.  Every line of the normalized snapshot is
non-empty and not classified transient, and the kept lines are a sublist of
(appear in the same relative order as) the trimmed lines of the input. -/
theorem C8_normalize_postcondition (S : String) :
    (∀ l ∈ splitlines (clean_snapshot_text S),
      l ≠ "" ∧ is_transient_ui_line l = false) ∧
    (splitlines (clean_snapshot_text S)).Sublist ((splitlines S).map pyStrip) := by
  have hmem : ∀ l ∈ ((splitlines S).map pyStrip).filter
      (fun l => !(l = "" : Bool) && !is_transient_ui_line l),
      l ≠ "" ∧ is_transient_ui_line l = false ∧ pyStrip l = l ∧
        ∀ c ∈ l.data, isLineBreak c = false := by
    intro l hl
    rw [List.mem_filter] at hl
    obtain ⟨hmap, hpred⟩ := hl
    rw [Bool.and_eq_true] at hpred
    obtain ⟨hne, htr⟩ := hpred
    have hne' : l ≠ "" := by
      intro h
      rw [h] at hne
      simp at hne
    have htr' : is_transient_ui_line l = false := by simpa using htr
    obtain ⟨m, hmmem, rfl⟩ := List.mem_map.mp hmap
    refine ⟨hne', htr', pyStrip_pyStrip m, ?_⟩
    intro c hc
    have hcm : c ∈ m.data := mem_pyStripL hc
    obtain ⟨md, hmd, rfl⟩ := List.mem_map.mp hmmem
    exact splitBreaks_no_break (normCRLF S.data) [] (by simp) md hmd c hcm
  have hsplit : splitlines (clean_snapshot_text S) =
      ((splitlines S).map pyStrip).filter
        (fun l => !(l = "" : Bool) && !is_transient_ui_line l) := by
    have hstrip : clean_snapshot_text S =
        joinLinesNL (((splitlines S).map pyStrip).filter
          (fun l => !(l = "" : Bool) && !is_transient_ui_line l)) := by
      show pyStrip (joinLinesNL _) = joinLinesNL _
      apply strExt
      show pyStripL (joinSep '\n' _) = joinSep '\n' _
      apply pyStripL_joinSep
      intro p hp
      rw [List.mem_map] at hp
      obtain ⟨l, hl, rfl⟩ := hp
      obtain ⟨h1, _, h3, _⟩ := hmem l hl
      constructor
      · exact ne_empty_iff_data.mp h1
      · exact congrArg String.data h3
    rw [hstrip]
    show (splitlinesL (joinSep '\n' _)).map String.mk = _
    rw [splitlinesL_join]
    · rw [List.map_map]
      apply List.map_id''
      intro l
      exact mk_data l
    · intro p hp
      rw [List.mem_map] at hp
      obtain ⟨l, hl, rfl⟩ := hp
      obtain ⟨h1, _, _, h4⟩ := hmem l hl
      exact ⟨ne_empty_iff_data.mp h1, h4⟩
  constructor
  · intro l hl
    rw [hsplit] at hl
    exact ⟨(hmem l hl).1, (hmem l hl).2.1⟩
  · rw [hsplit]
    exact List.filter_sublist _

/-- C8 witness: the postcondition applied at a concrete snapshot whose middle
line is transient. -/
theorem C8_witness :
    "Hi" ≠ "" ∧ is_transient_ui_line "Hi" = false :=
  (C8_normalize_postcondition "Hi\nThinking\nBye.").1 "Hi" (by decide)

/-! ### Poller lemmas (C2, C3) -/

/-- Normalized captures are trimmed strings. -/
theorem conv_stripped (d : ScreenData) :
    pyStrip (conversation_text_from_data d) = conversation_text_from_data d := by
  unfold conversation_text_from_data
  by_cases h : d.success = true
  · rw [if_pos h]
    exact pyStrip_clean _
  · rw [if_neg h]
    rfl

/-- Loop-exit step: once the virtual deadline is reached the poller returns
`(False, last_snapshot)`. -/
theorem waitRun_deadline (oracle : Nat → ScreenData) (prev : String) (mw i : ℚ) (req : Nat)
    (f k : Nat) (e : ℚ) (saw : Bool) (last : String) (stable : Nat)
    (hk : ¬ e < mw) :
    waitRun oracle prev mw i req (f + 1) k e saw last stable = some (false, last, e) := by
  simp only [waitRun]
  rw [if_neg hk]

/-- Empty-capture step: the cycle is skipped with no state change. -/
theorem waitRun_empty_step (oracle : Nat → ScreenData) (prev : String) (mw i : ℚ) (req : Nat)
    (f k : Nat) (e : ℚ) (saw : Bool) (last : String) (stable : Nat)
    (hk : e < mw) (hcur : conversation_text_from_data (oracle k) = "") :
    waitRun oracle prev mw i req (f + 1) k e saw last stable
      = waitRun oracle prev mw i req f (k + 1) (e + i) saw last stable := by
  simp only [waitRun]
  rw [if_pos hk, hcur, if_pos rfl]

/-- Baseline step: the snapshot still equals the baseline and no change has
been seen, so the cycle is skipped with no state change. -/
theorem waitRun_skip_step (oracle : Nat → ScreenData) (b : String) (mw i : ℚ) (req : Nat)
    (f k : Nat) (e : ℚ) (last : String) (stable : Nat)
    (hk : e < mw) (hcur : conversation_text_from_data (oracle k) = b) (hb : b ≠ "") :
    waitRun oracle b mw i req (f + 1) k e false last stable
      = waitRun oracle b mw i req f (k + 1) (e + i) false last stable := by
  simp only [waitRun]
  rw [if_pos hk, hcur, if_neg hb]
  have hsaw : (false || decide (¬ b = b)) = false := by simp
  rw [hsaw, if_pos rfl]

/-- Change step: the snapshot differs from both the baseline and the previous
cycle and shows no cursor — the stable counter is reset to 1. -/
theorem waitRun_change_step (oracle : Nat → ScreenData) (b : String) (mw i : ℚ) (req : Nat)
    (f k : Nat) (e : ℚ) (saw : Bool) (last : String) (stable : Nat) (s : String)
    (hk : e < mw) (hcur : conversation_text_from_data (oracle k) = s)
    (hs : s ≠ "") (hdiff : s ≠ b) (hcursor : containsStr s "▍" = false) (hneq : s ≠ last) :
    waitRun oracle b mw i req (f + 1) k e saw last stable
      = waitRun oracle b mw i req f (k + 1) (e + i) true s 1 := by
  simp only [waitRun]
  rw [if_pos hk, hcur, if_neg hs]
  have hsaw : (saw || decide (¬ s = b)) = true := by simp [hdiff]
  rw [hsaw]
  rw [if_neg (by simp)]
  rw [hcursor]
  rw [if_neg (by simp), if_neg hneq]

/-- Stable step, not yet enough cycles: the counter increments. -/
theorem waitRun_stable_step (oracle : Nat → ScreenData) (b : String) (mw i : ℚ) (req : Nat)
    (f k : Nat) (e : ℚ) (stable : Nat) (s : String)
    (hk : e < mw) (hcur : conversation_text_from_data (oracle k) = s)
    (hs : s ≠ "") (hcursor : containsStr s "▍" = false) (hreq : ¬ req ≤ stable + 1) :
    waitRun oracle b mw i req (f + 1) k e true s stable
      = waitRun oracle b mw i req f (k + 1) (e + i) true s (stable + 1) := by
  simp only [waitRun]
  rw [if_pos hk, hcur, if_neg hs]
  have hsaw : (true || decide (¬ s = b)) = true := by simp
  rw [hsaw]
  rw [if_neg (by simp)]
  rw [hcursor]
  rw [if_neg (by simp), if_pos rfl, if_neg hreq]

/-- Stable step reaching the required count: the poller completes. -/
theorem waitRun_complete_step (oracle : Nat → ScreenData) (b : String) (mw i : ℚ) (req : Nat)
    (f k : Nat) (e : ℚ) (stable : Nat) (s : String)
    (hk : e < mw) (hcur : conversation_text_from_data (oracle k) = s)
    (hs : s ≠ "") (hcursor : containsStr s "▍" = false) (hreq : req ≤ stable + 1) :
    waitRun oracle b mw i req (f + 1) k e true s stable = some (true, s, e) := by
  simp only [waitRun]
  rw [if_pos hk, hcur, if_neg hs]
  have hsaw : (true || decide (¬ s = b)) = true := by simp
  rw [hsaw]
  rw [if_neg (by simp)]
  rw [hcursor]
  rw [if_neg (by simp), if_pos rfl, if_pos hreq]

/-- Timeout run: when every capture normalizes to the non-empty baseline, the
loop never changes state and exits at the deadline with the baseline. -/
theorem waitRun_const_baseline (oracle : Nat → ScreenData) (b : String) (mw i : ℚ) (req : Nat)
    (hobs : ∀ j, conversation_text_from_data (oracle j) = b) (hb : b ≠ "") :
    ∀ fuel k (e : ℚ) stable,
      (∃ m : Nat, m < fuel ∧ mw ≤ e + (m : ℚ) * i) →
      ∃ e', waitRun oracle b mw i req fuel k e false b stable = some (false, b, e') ∧ mw ≤ e' := by
  intro fuel
  induction fuel with
  | zero =>
    intro k e stable h
    obtain ⟨m, hm, _⟩ := h
    exact absurd hm (Nat.not_lt_zero m)
  | succ f ih =>
    intro k e stable h
    obtain ⟨m, hm, hle⟩ := h
    by_cases hk : e < mw
    · rw [waitRun_skip_step oracle b mw i req f k e b stable hk (hobs k) hb]
      have hm0 : m ≠ 0 := by
        rintro rfl
        rw [Nat.cast_zero, zero_mul, add_zero] at hle
        exact absurd hle (not_le.mpr hk)
      obtain ⟨m', rfl⟩ := Nat.exists_eq_succ_of_ne_zero hm0
      refine ih (k + 1) (e + i) stable ⟨m', by omega, ?_⟩
      have harith : e + i + (m' : ℚ) * i = e + ((m' + 1 : ℕ) : ℚ) * i := by
        push_cast
        ring
      rw [harith]
      exact hle
    · exact ⟨e, waitRun_deadline oracle b mw i req f k e false b stable hk, le_of_not_lt hk⟩

/-- C3: timeout.  For every non-empty baseline `b` and `max_wait_time > 0`, if
every normalized snapshot observed by the poller equals `b`, the poller
returns `completed = False` with snapshot `b`, and the virtual elapsed time at
return is at least `max_wait_time`.  (The fuel hypothesis says the model was
run long enough for the Python loop to reach its deadline.) -/
theorem C3_timeout (oracle : Nat → ScreenData) (b : String) (mw i : ℚ) (req fuel : Nat)
    (_hmw : 0 < mw)
    (hobs : ∀ j, conversation_text_from_data (oracle j) = b) (hb : b ≠ "")
    (hfuel : ∃ m : Nat, m < fuel ∧ mw ≤ (m : ℚ) * i) :
    ∃ e, wait_for_response_completion oracle b mw i req fuel = some (false, b, e) ∧ mw ≤ e := by
  have hfix : pyStrip b = b := by
    rw [← hobs 0]
    exact conv_stripped _
  have hsaw : decide (pyStrip b = "") = false := by
    rw [hfix]
    exact decide_eq_false hb
  unfold wait_for_response_completion
  rw [hsaw]
  obtain ⟨m, hm, hle⟩ := hfuel
  exact waitRun_const_baseline oracle b mw i req hobs hb fuel 0 0 0
    ⟨m, hm, by simpa using hle⟩

/-- C3 witness: a baseline that never changes times out after the deadline with
the baseline snapshot. -/
theorem C3_witness :
    ∃ e, wait_for_response_completion c3Oracle "user: waiting" 3 2 2 3
      = some (false, "user: waiting", e) ∧ (3 : ℚ) ≤ e := by
  have hconv : conversation_text_from_data ⟨true, ["user: waiting"]⟩ = "user: waiting" := by
    decide
  exact C3_timeout c3Oracle "user: waiting" 3 2 2 3 (by norm_num)
    (fun j => hconv) (by decide) ⟨2, by omega, by norm_num⟩

/-- Waiting phase: cycles whose capture still normalizes to the baseline (or to
an empty snapshot) are skipped without state change. -/
theorem waitRun_phase1 (oracle : Nat → ScreenData) (b : String) (mw i : ℚ) (req : Nat) :
    ∀ (m f k : Nat) (e : ℚ) (saw : Bool) (last : String) (stable : Nat),
      (0 < m → b ≠ "" → saw = false) →
      (∀ j, j < m → conversation_text_from_data (oracle (k + j)) = b) →
      (∀ j : Nat, j < m → e + (j : ℚ) * i < mw) →
      waitRun oracle b mw i req (f + m) k e saw last stable
        = waitRun oracle b mw i req f (k + m) (e + (m : ℚ) * i) saw last stable := by
  intro m
  induction m with
  | zero =>
    intro f k e saw last stable _ _ _
    rw [Nat.add_zero, Nat.add_zero, Nat.cast_zero, zero_mul, add_zero]
  | succ m ih =>
    intro f k e saw last stable hsaw hobs htime
    have hk : e < mw := by
      have := htime 0 (by omega)
      simpa using this
    have hcur : conversation_text_from_data (oracle k) = b := by
      have := hobs 0 (by omega)
      simpa using this
    have hstep : waitRun oracle b mw i req (f + m + 1) k e saw last stable
        = waitRun oracle b mw i req (f + m) (k + 1) (e + i) saw last stable := by
      by_cases hb : b = ""
      · exact waitRun_empty_step oracle b mw i req (f + m) k e saw last stable hk
          (by rw [hcur, hb])
      · have hsf : saw = false := hsaw (by omega) hb
        subst hsf
        exact waitRun_skip_step oracle b mw i req (f + m) k e last stable hk hcur hb
    rw [show f + (m + 1) = f + m + 1 from by omega, hstep]
    rw [ih f (k + 1) (e + i) saw last stable (fun _ hb => hsaw (by omega) hb)
      (fun j hj => by
        have := hobs (j + 1) (by omega)
        rw [show k + 1 + j = k + (j + 1) from by omega]
        exact this)
      (fun j hj => by
        have := htime (j + 1) (by omega)
        have harith : e + i + (j : ℚ) * i = e + ((j + 1 : ℕ) : ℚ) * i := by
          push_cast
          ring
        rw [harith]
        exact this)]
    have harith : e + i + (m : ℚ) * i = e + ((m + 1 : ℕ) : ℚ) * i := by
      push_cast
      ring
    rw [show k + 1 + m = k + (m + 1) from by omega, harith]

/-- Stabilization phase: once the stable snapshot `s` repeats every cycle with
no cursor, the poller completes after `required - (stable + 1)` further
cycles. -/
theorem waitRun_stabilize (oracle : Nat → ScreenData) (b : String) (mw i : ℚ) (req : Nat)
    (s : String) (hs : s ≠ "") (hcursor : containsStr s "▍" = false) :
    ∀ (f k stable : Nat) (e : ℚ),
      (∀ j, conversation_text_from_data (oracle (k + j)) = s) →
      req - (stable + 1) < f →
      (∀ j : Nat, j ≤ req - (stable + 1) → e + (j : ℚ) * i < mw) →
      waitRun oracle b mw i req f k e true s stable
        = some (true, s, e + ((req - (stable + 1) : ℕ) : ℚ) * i) := by
  intro f
  induction f with
  | zero => intro k stable e _ hf _; exact absurd hf (Nat.not_lt_zero _)
  | succ f ih =>
    intro k stable e hobs hf htime
    have hk : e < mw := by
      have := htime 0 (by omega)
      simpa using this
    have hcur : conversation_text_from_data (oracle k) = s := by
      have := hobs 0
      simpa using this
    by_cases hreq : req ≤ stable + 1
    · rw [waitRun_complete_step oracle b mw i req f k e stable s hk hcur hs hcursor hreq]
      rw [show req - (stable + 1) = 0 from by omega]
      rw [Nat.cast_zero, zero_mul, add_zero]
    · rw [waitRun_stable_step oracle b mw i req f k e stable s hk hcur hs hcursor hreq]
      rw [ih (k + 1) (stable + 1) (e + i)
        (fun j => by
          have := hobs (j + 1)
          rw [show k + 1 + j = k + (j + 1) from by omega]
          exact this)
        (by omega)
        (fun j hj => by
          have := htime (j + 1) (by omega)
          have harith : e + i + (j : ℚ) * i = e + ((j + 1 : ℕ) : ℚ) * i := by
            push_cast
            ring
          rw [harith]
          exact this)]
      have hd : req - (stable + 1) = (req - (stable + 1 + 1)) + 1 := by omega
      rw [hd]
      have harith : e + i + ((req - (stable + 1 + 1) : ℕ) : ℚ) * i
          = e + (((req - (stable + 1 + 1)) + 1 : ℕ) : ℚ) * i := by
        push_cast
        ring
      rw [harith]

/-- C2 (amended): stabilization.  If the poller observes `c` cycles equal to
the baseline `b` followed by a non-empty, cursor-free snapshot `s ≠ b` repeated
on every later cycle, and the deadline allows it, then it returns
`(completed = True, s)`, and the virtual elapsed time at return is exactly
`(c + 1 + (n - 2)) * check_interval` — hence at least `(c + n - 1) *
check_interval`, one `check_interval` less than the `(c + n) * check_interval`
the claim states. -/
theorem C2_stabilization (oracle : Nat → ScreenData) (b s : String) (mw i : ℚ)
    (c n fuel : Nat)
    (hn : 1 ≤ n) (hi : 0 < i)
    (hbase : ∀ j, j < c → conversation_text_from_data (oracle j) = b)
    (hafter : ∀ j, c ≤ j → conversation_text_from_data (oracle j) = s)
    (hsb : s ≠ b) (hs : s ≠ "") (hcursor : containsStr s "▍" = false)
    (hfuel : c + 1 + (n - 2) < fuel)
    (htime : ((c + 1 + (n - 2) : ℕ) : ℚ) * i < mw) :
    wait_for_response_completion oracle b mw i n fuel
      = some (true, s, ((c + 1 + (n - 2) : ℕ) : ℚ) * i) ∧
    ((c + (n - 1) : ℕ) : ℚ) * i ≤ ((c + 1 + (n - 2) : ℕ) : ℚ) * i := by
  have htime' : ∀ k : Nat, k ≤ c + 1 + (n - 2) → ((k : ℕ) : ℚ) * i < mw := by
    intro k hk
    have h1 : ((k : ℕ) : ℚ) * i ≤ ((c + 1 + (n - 2) : ℕ) : ℚ) * i := by
      apply mul_le_mul_of_nonneg_right _ (le_of_lt hi)
      exact_mod_cast hk
    exact lt_of_le_of_lt h1 htime
  constructor
  · unfold wait_for_response_completion
    have hsawc : 0 < c → b ≠ "" → decide (pyStrip b = "") = false := by
      intro hc hb
      have hfix : pyStrip b = b := by
        rw [← hbase 0 hc]
        exact conv_stripped _
      rw [hfix]
      exact decide_eq_false hb
    rw [show fuel = (fuel - c) + c from by omega]
    rw [waitRun_phase1 oracle b mw i n c (fuel - c) 0 0 (decide (pyStrip b = "")) b 0
      (fun hc hb => hsawc hc hb)
      (fun j hj => by simpa using hbase j hj)
      (fun j hj => by
        have := htime' j (by omega)
        simpa using this)]
    rw [show fuel - c = (fuel - c - 1) + 1 from by omega]
    simp only [Nat.zero_add]
    rw [waitRun_change_step oracle b mw i n (fuel - c - 1) c (0 + (c : ℚ) * i)
      (decide (pyStrip b = "")) b 0 s
      (by
        have := htime' c (by omega)
        simpa using this)
      (hafter c le_rfl) hs hsb hcursor hsb]
    rw [waitRun_stabilize oracle b mw i n s hs hcursor (fuel - c - 1) (c + 1) 1
      (0 + (c : ℚ) * i + i)
      (fun j => hafter (c + 1 + j) (by omega))
      (by omega)
      (fun j hj => by
        have := htime' (c + 1 + j) (by omega)
        have harith : 0 + (c : ℚ) * i + i + (j : ℚ) * i = ((c + 1 + j : ℕ) : ℚ) * i := by
          push_cast
          ring
        rw [harith]
        exact this)]
    have harith : 0 + (c : ℚ) * i + i + ((n - (1 + 1) : ℕ) : ℚ) * i
        = ((c + 1 + (n - 2) : ℕ) : ℚ) * i := by
      rw [show n - (1 + 1) = n - 2 from by omega]
      push_cast
      ring
    rw [harith]
  · apply mul_le_mul_of_nonneg_right _ (le_of_lt hi)
    have h2 : c + (n - 1) ≤ c + 1 + (n - 2) := by omega
    exact_mod_cast h2

/-- C2 counterexample: with baseline `"user: a"` observed for `c = 1` cycle,
answer `"done."`, `check_interval = 3/2` and `stable_cycles_required = n = 2`,
the poller completes with elapsed time `3`, which is NOT at least
`(c + n) * check_interval = 9/2` — the claim's elapsed-time bound fails (the
completing cycle returns before its sleep). -/
theorem C2_counterexample :
    wait_for_response_completion c2Oracle "user: a" 100 (3 / 2 : ℚ) 2 10
      = some (true, "done.", 3) ∧ ¬ ((3 : ℚ) ≥ ((1 + 2 : ℕ) : ℚ) * (3 / 2 : ℚ)) := by
  constructor
  · unfold wait_for_response_completion
    rw [show decide (pyStrip "user: a" = "") = false from by decide]
    rw [show (10 : Nat) = 9 + 1 from rfl]
    rw [waitRun_skip_step c2Oracle "user: a" 100 (3 / 2) 2 9 0 0 "user: a" 0
      (by norm_num) (by decide) (by decide)]
    rw [show (9 : Nat) = 8 + 1 from rfl]
    rw [waitRun_change_step c2Oracle "user: a" 100 (3 / 2) 2 8 1 (0 + 3 / 2) false "user: a" 0
      "done." (by norm_num) (by decide) (by decide) (by decide) (by decide) (by decide)]
    rw [show (8 : Nat) = 7 + 1 from rfl]
    rw [waitRun_complete_step c2Oracle "user: a" 100 (3 / 2) 2 7 2 (0 + 3 / 2 + 3 / 2) 1
      "done." (by norm_num) (by decide) (by decide) (by decide) (by omega)]
    norm_num
  · push_cast
    norm_num

/-- C2 witness: the amended claim applied to the counterexample scenario
(`c = 1`, `n = 2`). -/
theorem C2_witness :
    wait_for_response_completion c2Oracle "user: a" 100 (3 / 2 : ℚ) 2 10
      = some (true, "done.", ((1 + 1 + (2 - 2 : ℕ) : ℕ) : ℚ) * (3 / 2 : ℚ)) := by
  have hbase : ∀ j, j < 1 → conversation_text_from_data (c2Oracle j) = "user: a" := by
    intro j hj
    have hj0 : j = 0 := by omega
    subst hj0
    decide
  have hafter : ∀ j, 1 ≤ j → conversation_text_from_data (c2Oracle j) = "done." := by
    intro j hj
    show conversation_text_from_data ⟨true, [if j < 1 then "user: a" else "done."]⟩ = "done."
    rw [if_neg (by omega)]
    decide
  exact (C2_stabilization c2Oracle "user: a" "done." 100 (3 / 2) 1 2 10 (by omega)
    (by norm_num) hbase hafter (by decide) (by decide) (by decide) (by omega)
    (by push_cast; norm_num)).1

/-! ### Prompt sanitization invariant (C10) -/

theorem sanitizePrompt_noBadChars (prompt : String) :
    noBadChars (sanitizePrompt prompt) = true := by
  unfold noBadChars
  rw [List.all_eq_true]
  intro c hc
  have hc' : c ∈ prompt.data.map (fun c =>
      if c = '\n' then ' ' else if c = '\r' then ' ' else if c = '"' then '\'' else c) :=
    mem_pyStripL hc
  rw [List.mem_map] at hc'
  obtain ⟨a, _, rfl⟩ := hc'
  by_cases h1 : a = '\n'
  · simp [h1]
  · by_cases h2 : a = '\r'
    · simp [h1, h2]
    · by_cases h3 : a = '"'
      · simp [h1, h2, h3]
      · simp [h1, h2, h3]

/-- `get_chatgpt_response` either clears the pending slot or leaves it as it
was — it never writes a new record. -/
theorem getResponse_pending_cases (pending : Option PendingPrompt) (completed : Bool)
    (raw conv : String) (now : Nat) :
    (get_chatgpt_response_model pending completed raw conv now).2 = pending ∨
    (get_chatgpt_response_model pending completed raw conv now).2 = none := by
  rcases pending with _ | p
  · by_cases hcomp : completed = true
    · right
      simp [get_chatgpt_response_model, hcomp]
    · right
      simp [get_chatgpt_response_model, hcomp]
  · by_cases hcomp : completed = true
    · by_cases hvis : snapshot_contains_prompt raw p.prompt = true
      · by_cases hecho : remove_prompt_echo_artifacts (responseSourceOf raw conv p.prompt) p.prompt = ""
            ∨ is_prompt_echo_response
                (remove_prompt_echo_artifacts (responseSourceOf raw conv p.prompt) p.prompt)
                p.prompt = true
        · cases hdet : detect_terminal_ui_failure (scopedSnapshotOf raw p.prompt) with
          | none =>
            left
            simp [get_chatgpt_response_model, hcomp, hvis, hecho, hdet]
          | some token =>
            right
            simp [get_chatgpt_response_model, hcomp, hvis, hecho, hdet]
        · right
          simp [get_chatgpt_response_model, hcomp, hvis, hecho]
      · by_cases hage : 60 ≤ now - p.created_at
        · right
          simp [get_chatgpt_response_model, hcomp, hvis, hage]
        · left
          simp [get_chatgpt_response_model, hcomp, hvis, hage]
    · left
      simp [get_chatgpt_response_model, hcomp]

/-- C10: prompt sanitization invariant.  `ask_chatgpt` never forwards or
records the raw prompt: the sanitized prompt (newlines and carriage returns
replaced by spaces, double quotes by single quotes, then trimmed) contains no
newline, carriage-return or double-quote character; every send action carries
exactly the sanitized prompt; the sanitization invariant on the pending slot is
preserved; and the final pending slot is the unchanged input slot, empty, or a
record whose prompt field is the sanitized prompt (against which all later
echo/visibility matching is performed). -/
theorem C10_prompt_sanitization (prompt : String) (st : Option PendingPrompt) (now : Nat)
    (env : AskEnv) (hinv : pendingClean st = true) :
    noBadChars (sanitizePrompt prompt) = true ∧
    pendingClean (ask_chatgpt st now prompt env).2.1 = true ∧
    (ask_chatgpt st now prompt env).2.2.all (fun a =>
      match a with
      | AutomationAction.sendMessage t => decide (t = sanitizePrompt prompt)
      | _ => true) = true ∧
    ((ask_chatgpt st now prompt env).2.1 = st ∨ (ask_chatgpt st now prompt env).2.1 = none ∨
      ∃ q, (ask_chatgpt st now prompt env).2.1 = some q ∧ q.prompt = sanitizePrompt prompt) := by
  refine ⟨sanitizePrompt_noBadChars prompt, ?_⟩
  cases st with
  | some p =>
    refine ⟨hinv, by simp [ask_chatgpt], Or.inl rfl⟩
  | none =>
    unfold ask_chatgpt
    by_cases hprobe : is_readiness_probe_prompt (sanitizePrompt prompt) = true
    · rw [if_pos hprobe]
      exact ⟨rfl, by simp, Or.inr (Or.inl rfl)⟩
    · rw [if_neg hprobe]
      by_cases hconf : snapshot_contains_prompt
          (resolve_post_send_baseline env.resolve_snaps env.before_snapshot
            (sanitizePrompt prompt)) (sanitizePrompt prompt) = true
      · rw [if_neg (by simp [hconf])]
        set pend : PendingPrompt :=
          ⟨sanitizePrompt prompt,
            resolve_post_send_baseline env.resolve_snaps env.before_snapshot
              (sanitizePrompt prompt), now⟩ with hpend
        rcases getResponse_pending_cases (some pend) env.poll_completed env.raw_response
            env.conversation_text env.response_now with hcase | hcase
        · refine ⟨?_, ?_, ?_⟩
          · show pendingClean (get_chatgpt_response_model (some pend) env.poll_completed
              env.raw_response env.conversation_text env.response_now).2 = true
            rw [hcase]
            show noBadChars pend.prompt = true
            exact sanitizePrompt_noBadChars prompt
          · simp
          · exact Or.inr (Or.inr ⟨pend, hcase, rfl⟩)
        · refine ⟨?_, ?_, ?_⟩
          · show pendingClean (get_chatgpt_response_model (some pend) env.poll_completed
              env.raw_response env.conversation_text env.response_now).2 = true
            rw [hcase]
            rfl
          · simp
          · exact Or.inr (Or.inl hcase)
      · rw [if_pos (by simp [hconf])]
        exact ⟨rfl, by simp, Or.inr (Or.inl rfl)⟩

/-- C10 witness: the invariant applied to a prompt containing a newline and
double quotes, starting from an empty pending slot. -/
theorem C10_witness :
    noBadChars (sanitizePrompt "say \"hi\"\nnow") = true ∧
    pendingClean (ask_chatgpt none 0 "say \"hi\"\nnow" c10Env).2.1 = true ∧
    sanitizePrompt "say \"hi\"\nnow" = "say 'hi' now" := by
  have h := C10_prompt_sanitization "say \"hi\"\nnow" none 0 c10Env rfl
  exact ⟨h.1, h.2.1, by decide⟩
